import Mathlib

/-!
Verification development for the runtime core of `typed-fastify`
(`src/typed-fastify.ts`).

The runtime core consists of the exported `addSchema` function:
 - the `$id` gate on the supplied JSON schema,
 - the `matches` / `asReply` reply decorations and the `operationPath`
   request annotation (`onRequest` hook),
 - the `onRoute` hook that resolves a route's schema fragment from the
   pre-compiled schema table (with the root-path fallbacks) and merges in
   optional swagger security metadata,
 - the service-registration loop (key splitting, HTTP-method validation,
   the `typeof handler` switch).

JavaScript objects that the engine treats as opaque blobs (schema values,
security requirement objects) are modelled as opaque atoms (`SVal`);
objects whose top-level keys the engine manipulates are modelled as
ordered association lists (`JObj`), so that JS object-spread semantics
(later keys override, insertion order preserved) can be stated exactly.
Strings that the code splits or concatenates are modelled as `List Char`.

The compile-time-only reply discipline (the `Reply` interface, lines
139-238 of the source) is modelled as a reference-typed call language:
a handler body is a sequence of method calls, each on any previously
obtained reference; a call type-checks according to the method
signatures (`methodTy`); references are not consumed by use (TypeScript
types are not linear, so the receiver keeps its type after a call); and
a true `matches` narrows the receiver exactly as the source's `this is`
predicate prescribes, with `Status` the union of the new operation's
response statuses and `Headers` the corresponding union of declared
header types.
-/

/-- Values stored inside schema objects, the schema table and the security
map.  The engine never looks inside them (they are JSON objects/arrays,
hence truthy in JS), so they are opaque atoms. -/
abbrev SVal := String

/-- A JavaScript object as manipulated by the `onRoute` hook: an ordered
list of key/value pairs (JS preserves insertion order for string keys). -/
abbrev JObj := List (List Char × SVal)

/-- First-match association-list lookup, modelling JS property access
`m[k]` (absent key gives `undefined`, i.e. `none`). -/
def alookup {κ β : Type} [DecidableEq κ] (k : κ) : List (κ × β) → Option β
  | [] => none
  | (k', v) :: rest => if k' = k then some v else alookup k rest

@[simp] theorem alookup_nil {κ β : Type} [DecidableEq κ] (k : κ) :
    alookup k ([] : List (κ × β)) = none := rfl

@[simp] theorem alookup_cons {κ β : Type} [DecidableEq κ] (k k' : κ) (v : β)
    (rest : List (κ × β)) :
    alookup k ((k', v) :: rest) = if k' = k then some v else alookup k rest := rfl

/-- JS object spread `{...a, ...b}`: keys of `a` in their order (values
overridden by `b` on collision), then keys of `b` not already in `a`. -/
def spread2 (a b : JObj) : JObj :=
  a.map (fun e => (e.1, (alookup e.1 b).getD e.2)) ++
    b.filter (fun e => (alookup e.1 a).isNone)

theorem alookup_map_override (k : List Char) (a b : JObj) :
    alookup k (a.map (fun e => (e.1, (alookup e.1 b).getD e.2))) =
      (alookup k a).map (fun v => (alookup k b).getD v) := by
  induction a with
  | nil => rfl
  | cons e rest ih =>
    obtain ⟨k', v⟩ := e
    by_cases h : k' = k
    · subst h; simp [alookup]
    · simp [alookup, h, ih]

theorem alookup_append (k : List Char) (xs ys : JObj) :
    alookup k (xs ++ ys) = (alookup k xs).or (alookup k ys) := by
  induction xs with
  | nil => simp [alookup]
  | cons e rest ih =>
    obtain ⟨k', v⟩ := e
    by_cases h : k' = k
    · subst h; simp [alookup]
    · simp [alookup, h, ih]

theorem alookup_filter_key (k : List Char) (b : JObj) (p : List Char → Bool) :
    alookup k (b.filter (fun e => p e.1)) =
      if p k then alookup k b else none := by
  induction b with
  | nil => simp [alookup]
  | cons e rest ih =>
    obtain ⟨k', v⟩ := e
    by_cases hk : k' = k
    · subst hk
      by_cases hp : p k' <;> simp [alookup, hp, ih]
    · by_cases hp : p k' <;> simp [alookup, hk, hp, ih]

/-- Lookup in a two-object spread is right-biased choice: the later
object's binding wins on collision. -/
theorem alookup_spread2 (k : List Char) (a b : JObj) :
    alookup k (spread2 a b) = (alookup k b).or (alookup k a) := by
  unfold spread2
  rw [alookup_append, alookup_map_override,
    alookup_filter_key k b (fun k => (alookup k a).isNone)]
  cases ha : alookup k a with
  | none => simp [ha]
  | some v =>
    cases hb : alookup k b with
    | none => simp [ha, hb]
    | some w => simp [ha, hb]

/-! ## Route Schema Resolution Engine (`onRoute` hook, source lines 47-74) -/

/-- One entry of `opts.jsonSchema.fastify`: the schema fragment for a
route key.  `reqProps` models `maybeSchema?.request?.properties` (the
two optional-chaining steps collapse into one `Option`); `response`
models `maybeSchema.response`. -/
structure Frag where
  reqProps : Option JObj
  response : Option SVal
  deriving DecidableEq

/-- The parameters the `onRoute` hook receives from the server for one
route registration: `config.prefix` (written `pfx`), `config.method`,
`config.routePath` and the route's explicit `config.schema`. -/
structure RouteCfg where
  pfx : List Char
  method : List Char
  routePath : List Char
  schema : Option JObj
  deriving DecidableEq

/-- Fragment lookup with the root-path fallbacks (source lines 50-58):
`key = `"${config.method} ${config.routePath}"``; if no fragment and
`routePath === ""` retry with `"${config.method} /"`; if (still) no
fragment and `routePath === "/"` retry with `"${config.method} /"`. -/
def resolveFrag (table : List (List Char × Frag)) (cfg : RouteCfg) : Option Frag :=
  let key := cfg.method ++ ' ' :: cfg.routePath
  let m0 := alookup key table
  let m1 := if m0 = none ∧ cfg.routePath = [] then
      alookup (cfg.method ++ [' ', '/']) table
    else m0
  if m1 = none ∧ cfg.routePath = ['/'] then
    alookup (cfg.method ++ [' ', '/']) table
  else m1

/-- The object contributed by
`...(opts?.swaggerSecurityMap && opts.swaggerSecurityMap[key] && {security: ...})`:
a one-key object when the (optional) security map has an entry for `key`,
nothing otherwise. -/
def secObj (sec : Option JObj) (key : List Char) : JObj :=
  match sec with
  | some m =>
    match alookup key m with
    | some v => [("security".toList, v)]
    | none => []
  | none => []

/-- The object contributed by
`...(maybeSchema.response && {response: maybeSchema.response})`. -/
def respObj (f : Frag) : JObj :=
  match f.response with
  | some r => [("response".toList, r)]
  | none => []

/-- The `onRoute` hook (source lines 47-74): skip when the registration's
prefix differs from the instance prefix; otherwise resolve the fragment
(`resolveFrag`), default the explicit schema to `{}`
(`config.schema = config.schema || {}`), and on a hit build
`{...(config.schema ?? {}), ...security, ...maybeSchema?.request?.properties,
...(maybeSchema.response && {response: ...})}`.
Returns the route's final `config.schema`. -/
def resolveOnRoute (fastifyPfx : List Char) (table : List (List Char × Frag))
    (sec : Option JObj) (cfg : RouteCfg) : Option JObj :=
  if cfg.pfx ≠ fastifyPfx then cfg.schema
  else
    let key := cfg.method ++ ' ' :: cfg.routePath
    let base := cfg.schema.getD []
    match resolveFrag table cfg with
    | none => some base
    | some frag =>
      some (spread2 (spread2 (spread2 base (secObj sec key))
        (frag.reqProps.getD [])) (respObj frag))

/-! ## Claims C1, C4, C5: schema resolution -/

/-- Fragment resolution for the two root-path spellings: when the table
has no entry under the key `"<method> "` (method, space, empty path),
both spellings resolve the fragment via the root key `"<method> /"`. -/
theorem resolveFrag_root (table : List (List Char × Frag)) (m pfx pfx' : List Char)
    (sch0 sch' : Option JObj)
    (h₁ : alookup (m ++ [' ']) table = none) :
    resolveFrag table ⟨pfx, m, [], sch0⟩ = alookup (m ++ [' ', '/']) table ∧
    resolveFrag table ⟨pfx', m, ['/'], sch'⟩ = alookup (m ++ [' ', '/']) table := by
  constructor
  · simp [resolveFrag, h₁]
  · cases h : alookup (m ++ [' ', '/']) table <;> simp [resolveFrag, h]

/-- C1 (counterexample): with the schema table `{"GET /": fragment}` and
the security map `{"GET /": S}`, a route registered with `routePath ""`
resolves to `{body: B}` (the security lookup uses the unnormalized key
`"GET "`, which misses) while `routePath "/"` resolves to
`{security: S, body: B}` — the two root-path spellings are not
equivalent inputs. -/
theorem resolve_root_divergence :
    resolveOnRoute [] [("GET /".toList, ⟨some [("body".toList, "B")], none⟩)]
        (some [("GET /".toList, "S")]) ⟨[], "GET".toList, [], none⟩ ≠
      resolveOnRoute [] [("GET /".toList, ⟨some [("body".toList, "B")], none⟩)]
        (some [("GET /".toList, "S")]) ⟨[], "GET".toList, "/".toList, none⟩ := by
  decide

/-- C1 (amended): for every schema table with no entry under the key
`"<method> "` (method, space, empty path) and every security map whose
security contribution for the key `"<method> "` equals the one for
`"<method> /"` (in particular, any table/map keyed only by `"<method> /"`
with no security entry for either spelling), resolving with registered
`routePath ""` and with `routePath "/"` produce identical resolved
schema objects. -/
theorem resolve_root_alias (fastifyPfx : List Char) (table : List (List Char × Frag))
    (sec : Option JObj) (m pfx : List Char) (sch : Option JObj)
    (h₁ : alookup (m ++ [' ']) table = none)
    (h₂ : secObj sec (m ++ [' ']) = secObj sec (m ++ [' ', '/'])) :
    resolveOnRoute fastifyPfx table sec ⟨pfx, m, [], sch⟩ =
      resolveOnRoute fastifyPfx table sec ⟨pfx, m, ['/'], sch⟩ := by
  obtain ⟨e0, e1⟩ := resolveFrag_root table m pfx pfx sch sch h₁
  unfold resolveOnRoute
  by_cases hp : pfx = fastifyPfx
  · subst hp
    rw [if_neg (by simp), if_neg (by simp), e0, e1]
    cases h : alookup (m ++ [' ', '/']) table with
    | none => rfl
    | some frag =>
      show some (spread2 (spread2 (spread2 (sch.getD [])
          (secObj sec (m ++ [' ']))) (frag.reqProps.getD [])) (respObj frag)) =
        some (spread2 (spread2 (spread2 (sch.getD [])
          (secObj sec (m ++ [' ', '/']))) (frag.reqProps.getD [])) (respObj frag))
      rw [h₂]
  · rw [if_pos (by simpa using hp), if_pos (by simpa using hp)]

/-- Witness for `resolve_root_alias` at a concrete table and method. -/
theorem resolve_root_alias_witness :
    alookup ("GET".toList ++ [' '])
        [("GET /".toList, (⟨some [("body".toList, "B")], none⟩ : Frag))] = none ∧
    secObj none ("GET".toList ++ [' ']) = secObj none ("GET".toList ++ [' ', '/']) ∧
    resolveOnRoute [] [("GET /".toList, ⟨some [("body".toList, "B")], none⟩)] none
        ⟨[], "GET".toList, [], none⟩ =
      resolveOnRoute [] [("GET /".toList, ⟨some [("body".toList, "B")], none⟩)] none
        ⟨[], "GET".toList, ['/'], none⟩ :=
  ⟨by decide, rfl,
    resolve_root_alias [] [("GET /".toList, ⟨some [("body".toList, "B")], none⟩)] none
      "GET".toList [] none (by decide) rfl⟩

/-- C4: whenever the prefix matches and a schema fragment is found, the
resolved schema is, at every key, the right-biased merge of: the route's
explicit schema, the security metadata under `security` (present only
when the security map has an entry for `"<method> <routePath>"`), the
fragment's request-shape properties, and the fragment's response map
(present only when the fragment has one) — later contributions override
earlier ones on key collision. -/
theorem resolve_merge_precedence (fastifyPfx : List Char)
    (table : List (List Char × Frag)) (sec : Option JObj) (cfg : RouteCfg)
    (frag : Frag) (hp : cfg.pfx = fastifyPfx)
    (hf : resolveFrag table cfg = some frag) :
    ∃ r, resolveOnRoute fastifyPfx table sec cfg = some r ∧
      ∀ k, alookup k r =
        ((alookup k (respObj frag)).or
          ((alookup k (frag.reqProps.getD [])).or
            ((alookup k (secObj sec (cfg.method ++ ' ' :: cfg.routePath))).or
              (alookup k (cfg.schema.getD []))))) := by
  refine ⟨spread2 (spread2 (spread2 (cfg.schema.getD [])
      (secObj sec (cfg.method ++ ' ' :: cfg.routePath)))
      (frag.reqProps.getD [])) (respObj frag), ?_, ?_⟩
  · simp [resolveOnRoute, hp, hf]
  · intro k
    rw [alookup_spread2, alookup_spread2, alookup_spread2]

/-- Witness for `resolve_merge_precedence` at a concrete route. -/
theorem resolve_merge_precedence_witness :
    (⟨[], "GET".toList, "/".toList, some [("body".toList, "X")]⟩ : RouteCfg).pfx =
      ([] : List Char) ∧
    resolveFrag [("GET /".toList, (⟨some [("body".toList, "B")], some "R"⟩ : Frag))]
        ⟨[], "GET".toList, "/".toList, some [("body".toList, "X")]⟩ =
      some ⟨some [("body".toList, "B")], some "R"⟩ ∧
    ∃ r, resolveOnRoute [] [("GET /".toList, ⟨some [("body".toList, "B")], some "R"⟩)]
        (some [("GET /".toList, "S")])
        ⟨[], "GET".toList, "/".toList, some [("body".toList, "X")]⟩ = some r ∧
      ∀ k, alookup k r =
        ((alookup k (respObj ⟨some [("body".toList, "B")], some "R"⟩)).or
          ((alookup k ((⟨some [("body".toList, "B")], some "R"⟩ : Frag).reqProps.getD [])).or
            ((alookup k (secObj (some [("GET /".toList, "S")])
                ((⟨[], "GET".toList, "/".toList, some [("body".toList, "X")]⟩ : RouteCfg).method ++
                  ' ' :: (⟨[], "GET".toList, "/".toList, some [("body".toList, "X")]⟩ : RouteCfg).routePath))).or
              (alookup k ((⟨[], "GET".toList, "/".toList, some [("body".toList, "X")]⟩ : RouteCfg).schema.getD []))))) :=
  ⟨rfl, by decide,
    resolve_merge_precedence [] [("GET /".toList, ⟨some [("body".toList, "B")], some "R"⟩)]
      (some [("GET /".toList, "S")])
      ⟨[], "GET".toList, "/".toList, some [("body".toList, "X")]⟩
      ⟨some [("body".toList, "B")], some "R"⟩ rfl (by decide)⟩

/-- C5: a route registered with an explicit schema for which no fragment
is found (root-path fallbacks included) keeps that explicit schema
unmodified: a schema-lookup miss is a no-op, not an error. -/
theorem resolve_miss_keeps_schema (fastifyPfx : List Char)
    (table : List (List Char × Frag)) (sec : Option JObj) (cfg : RouteCfg)
    (s : JObj) (hs : cfg.schema = some s)
    (hm : resolveFrag table cfg = none) :
    resolveOnRoute fastifyPfx table sec cfg = some s := by
  unfold resolveOnRoute
  by_cases hp : cfg.pfx ≠ fastifyPfx
  · simp [hp, hs]
  · simp [hp, hm, hs]

/-- Witness for `resolve_miss_keeps_schema` at a concrete route. -/
theorem resolve_miss_keeps_schema_witness :
    (⟨[], "POST".toList, "/x".toList, some [("a".toList, "A")]⟩ : RouteCfg).schema =
      some [("a".toList, "A")] ∧
    resolveFrag [("GET /".toList, (⟨some [("body".toList, "B")], none⟩ : Frag))]
        ⟨[], "POST".toList, "/x".toList, some [("a".toList, "A")]⟩ = none ∧
    resolveOnRoute [] [("GET /".toList, ⟨some [("body".toList, "B")], none⟩)] none
        ⟨[], "POST".toList, "/x".toList, some [("a".toList, "A")]⟩ =
      some [("a".toList, "A")] :=
  ⟨rfl, by decide,
    resolve_miss_keeps_schema [] [("GET /".toList, ⟨some [("body".toList, "B")], none⟩)]
      none ⟨[], "POST".toList, "/x".toList, some [("a".toList, "A")]⟩
      [("a".toList, "A")] rfl (by decide)⟩

/-! ## JS string split/join (source lines 79 and 93/101)

`path.split(' ')` with a single-character string separator, and
`route.join(' ')`, modelled on `List Char`. -/

/-- Accumulator worker for `jsSplitSpace`: collects the current piece in
reverse in `acc`, emitting it at each space. -/
def splitAux : List Char → List Char → List (List Char)
  | [], acc => [acc.reverse]
  | c :: cs, acc => if c = ' ' then acc.reverse :: splitAux cs [] else splitAux cs (c :: acc)

/-- JS `s.split(' ')`: splits on every single space, keeping empty
pieces, and always returns at least one piece. -/
def jsSplitSpace (s : List Char) : List (List Char) := splitAux s []

/-- JS `parts.join(' ')`. -/
def joinSpace : List (List Char) → List Char
  | [] => []
  | [x] => x
  | x :: y :: t => x ++ ' ' :: joinSpace (y :: t)

theorem splitAux_ne_nil (s acc : List Char) : splitAux s acc ≠ [] := by
  induction s generalizing acc with
  | nil => simp [splitAux]
  | cons c cs ih =>
    by_cases h : c = ' ' <;> simp [splitAux, h, ih]

/-- Joining what `splitAux` produced restores the input (prefixed by the
pending accumulator). -/
theorem joinSpace_splitAux (s acc : List Char) :
    joinSpace (splitAux s acc) = acc.reverse ++ s := by
  induction s generalizing acc with
  | nil => simp [splitAux, joinSpace]
  | cons c cs ih =>
    by_cases h : c = ' '
    · subst h
      rw [splitAux, if_pos rfl]
      cases hs : splitAux cs [] with
      | nil => exact absurd hs (splitAux_ne_nil cs [])
      | cons y t =>
        have := ih []
        rw [hs] at this
        simp [joinSpace, this]
    · rw [splitAux, if_neg h, ih (c :: acc)]
      simp

/-- Splitting a key whose first piece `m` is space-free peels off `m`
before the first space. -/
theorem splitAux_first_piece (m rest acc : List Char) (h : ' ' ∉ m) :
    splitAux (m ++ ' ' :: rest) acc = (acc.reverse ++ m) :: splitAux rest [] := by
  induction m generalizing acc with
  | nil => simp [splitAux]
  | cons c cs ih =>
    have hc : c ≠ ' ' := fun hc => h (hc ▸ List.mem_cons_self c cs)
    have hcs : ' ' ∉ cs := fun hm => h (List.mem_cons_of_mem c hm)
    rw [List.cons_append, splitAux, if_neg hc, ih (c :: acc) hcs]
    simp

/-! ## Route Registration Engine (source lines 75-107) -/

/-- The seven HTTP method tokens accepted by the registration loop. -/
def httpMethods : List (List Char) :=
  ["DELETE".toList, "GET".toList, "HEAD".toList, "PATCH".toList, "POST".toList,
    "PUT".toList, "OPTIONS".toList]

/-- A JavaScript value occurring as a service-declaration entry.  Handler
functions are opaque and carry an identifier.  `vObject` is a non-null
object whose `handler` field is `none` when absent (i.e. `undefined`);
`vPrim` stands for the remaining primitives (string, number, boolean,
symbol, bigint). -/
inductive JsVal
  | vObject (handler : Option Nat)
  | vNull
  | vFunction (f : Nat)
  | vUndefined
  | vPrim
  deriving DecidableEq

/-- The result of the JS `typeof` operator on a `JsVal`; note
`typeof null` is `'object'`. -/
inductive JsType
  | tobject
  | tfunction
  | tundefined
  | tother
  deriving DecidableEq

def jsTypeof : JsVal → JsType
  | .vObject _ => .tobject
  | .vNull => .tobject
  | .vFunction _ => .tfunction
  | .vUndefined => .tundefined
  | .vPrim => .tother

/-- Evaluating `handler.handler`: reading a property off `null` (or
`undefined`) throws a TypeError; on an object it yields the field. -/
def getHandlerProp : JsVal → Except Unit (Option Nat)
  | .vObject h => .ok h
  | .vNull => .error ()
  | .vUndefined => .error ()
  | .vFunction _ => .ok none
  | .vPrim => .ok none

/-- Errors thrown by `addSchema`: `Error(msg)` and the TypeError raised
by a property access on `null`. -/
inductive JsErr
  | jsError (msg : List Char)
  | typeError
  deriving DecidableEq

/-- Observable registration effects of `addSchema`, in order. -/
inductive Effect
  | addedSchema
  | decoReply (n : List Char)
  | decoRequest (n : List Char)
  | hookAdded (n : List Char)
  | route (meth url : List Char) (handler : Option Nat)
  deriving DecidableEq

/-- The message of
``Error(`Wrong configuration for ${path}, method [${method}] is unknown HTTP method`)``. -/
def wrongConfigMsg (path meth : List Char) : List Char :=
  "Wrong configuration for ".toList ++ path ++ ", method [".toList ++ meth ++
    "] is unknown HTTP method".toList

/-- The guard `!method || !httpMethods.has(httpMethod)` of the
registration loop (`method` is the first piece of `path.split(' ')`,
upper-cased for the membership test). -/
def methodBad (path : List Char) : Bool :=
  let meth := (jsSplitSpace path).headD []
  meth.isEmpty || !(httpMethods.contains (meth.map Char.toUpper))

/-- The handler function carried by a `JsVal`, when it is one. -/
def funId : JsVal → Option Nat
  | .vFunction f => some f
  | _ => none

/-- One iteration of the registration loop (source lines 77-106): split
the key, validate the method (`methodBad`), then switch on
`typeof handler`.  Returns the `fastify.route` effects of this entry and
the error it throws, if any. -/
def regStep (path : List Char) (v : JsVal) : List Effect × Option JsErr :=
  let meth := (jsSplitSpace path).headD []
  if methodBad path then
    ([], some (.jsError (wrongConfigMsg path meth)))
  else
    match jsTypeof v with
    | .tobject =>
      match getHandlerProp v with
      | .error _ => ([], some .typeError)
      | .ok h =>
        ([.route (meth.map Char.toUpper) (joinSpace (jsSplitSpace path).tail) h], none)
    | .tfunction =>
      ([.route (meth.map Char.toUpper) (joinSpace (jsSplitSpace path).tail) (funId v)], none)
    | _ => ([], some (.jsError "Unknown handler".toList))

/-- The registration loop over the service declaration, in iteration
order: runs `regStep` per entry and stops at the first thrown error.
Returns the effects performed before the stop, and the error if one was
thrown. -/
def runRegister : List (List Char × JsVal) → List Effect × Option JsErr
  | [] => ([], none)
  | (path, v) :: rest =>
    let s := regStep path v
    match s.2 with
    | some e => (s.1, some e)
    | none => (s.1 ++ (runRegister rest).1, (runRegister rest).2)

/-- A successfully processed block of entries composes on the left of any
continuation of the loop. -/
theorem runRegister_append_ok (xs ys : List (List Char × JsVal)) (effs : List Effect)
    (h : runRegister xs = (effs, none)) :
    runRegister (xs ++ ys) = (effs ++ (runRegister ys).1, (runRegister ys).2) := by
  induction xs generalizing effs with
  | nil =>
    simp [runRegister] at h
    simp [h]
  | cons e rest ih =>
    obtain ⟨path, v⟩ := e
    rw [runRegister] at h
    rw [List.cons_append, runRegister]
    cases hs : (regStep path v).2 with
    | some err =>
      rw [hs] at h
      exact absurd (congrArg (fun p => p.2) h) (by simp)
    | none =>
      rw [hs] at h
      cases hr : runRegister rest with
      | mk es e? =>
        rw [hr] at h
        cases e? with
        | some err => exact absurd (congrArg (fun p => p.2) h) (by simp)
        | none =>
          have hes : effs = (regStep path v).1 ++ es := by
            have := congrArg (fun p => p.1) h
            simpa using this.symm
          rw [hes, ih es hr]
          simp

/-! ## Claims C3, C7: the registration loop -/

/-- C3 (counterexample): for the service
`{"GET /a": handler, "FOO /b": handler}` the loop throws (the second key
has an unknown method) but the first route has already been registered —
registration is not all-or-nothing at the route-registration level. -/
theorem register_not_all_or_nothing :
    ((runRegister [("GET /a".toList, JsVal.vFunction 0),
        ("FOO /b".toList, JsVal.vFunction 1)]).2).isSome = true ∧
    (runRegister [("GET /a".toList, JsVal.vFunction 0),
        ("FOO /b".toList, JsVal.vFunction 1)]).1 ≠ [] := by
  decide

/-- C3 (amended): an entry whose method token is unknown makes the loop
throw a fatal error whose message names the offending key, and
processing stops at that entry: no entry after it (in iteration order)
is examined or registered, while the entries before it have already been
registered with the server. -/
theorem register_aborts_at_bad_method (pre : List (List Char × JsVal))
    (badKey : List Char) (v : JsVal) (post : List (List Char × JsVal))
    (effs : List Effect) (hpre : runRegister pre = (effs, none))
    (hbad : methodBad badKey = true) :
    runRegister (pre ++ (badKey, v) :: post) =
      (effs, some (.jsError (wrongConfigMsg badKey ((jsSplitSpace badKey).headD [])))) ∧
    ∃ s t, wrongConfigMsg badKey ((jsSplitSpace badKey).headD []) = s ++ badKey ++ t := by
  constructor
  · rw [runRegister_append_ok pre ((badKey, v) :: post) effs hpre]
    simp [runRegister, regStep, hbad]
  · exact ⟨"Wrong configuration for ".toList,
      ", method [".toList ++ (jsSplitSpace badKey).headD [] ++
        "] is unknown HTTP method".toList, by simp [wrongConfigMsg]⟩

/-- Witness for `register_aborts_at_bad_method` on a two-entry service. -/
theorem register_aborts_at_bad_method_witness :
    runRegister [("GET /a".toList, JsVal.vFunction 0)] =
      ([Effect.route "GET".toList "/a".toList (some 0)], none) ∧
    methodBad "FOO /b".toList = true ∧
    (runRegister ([("GET /a".toList, JsVal.vFunction 0)] ++
        ("FOO /b".toList, JsVal.vFunction 1) :: []) =
      ([Effect.route "GET".toList "/a".toList (some 0)],
        some (.jsError (wrongConfigMsg "FOO /b".toList
          ((jsSplitSpace "FOO /b".toList).headD [])))) ∧
      ∃ s t, wrongConfigMsg "FOO /b".toList ((jsSplitSpace "FOO /b".toList).headD []) =
        s ++ "FOO /b".toList ++ t) :=
  ⟨by decide, by decide,
    register_aborts_at_bad_method [("GET /a".toList, JsVal.vFunction 0)] "FOO /b".toList
      (JsVal.vFunction 1) [] [Effect.route "GET".toList "/a".toList (some 0)]
      (by decide) (by decide)⟩

/-- C7: for a key whose method token `m` is space-free, the method is the
piece before the first space and the registered url is the remainder
after the first space, further spaces preserved (the split pieces
re-joined); a function entry under such a key is registered with exactly
that url. -/
theorem key_split_first_space (m rest : List Char) (f : Nat) (h : ' ' ∉ m) :
    (jsSplitSpace (m ++ ' ' :: rest)).headD [] = m ∧
    joinSpace ((jsSplitSpace (m ++ ' ' :: rest)).tail) = rest ∧
    (methodBad (m ++ ' ' :: rest) = false →
      runRegister [(m ++ ' ' :: rest, JsVal.vFunction f)] =
        ([Effect.route (m.map Char.toUpper) rest (some f)], none)) := by
  have hsplit : jsSplitSpace (m ++ ' ' :: rest) = m :: splitAux rest [] := by
    unfold jsSplitSpace
    rw [splitAux_first_piece m rest [] h]
    simp
  have hjoin : joinSpace ((jsSplitSpace (m ++ ' ' :: rest)).tail) = rest := by
    rw [hsplit]
    show joinSpace (splitAux rest []) = rest
    simpa using joinSpace_splitAux rest []
  have hj : joinSpace (splitAux rest []) = rest := by
    simpa using joinSpace_splitAux rest []
  refine ⟨by rw [hsplit]; rfl, hjoin, fun hmb => ?_⟩
  simp [runRegister, regStep, hmb, hsplit, funId, jsTypeof, hj]

/-- Witness for `key_split_first_space` on the key `"GET /a b"`. -/
theorem key_split_first_space_witness :
    (jsSplitSpace ("GET".toList ++ ' ' :: "/a b".toList)).headD [] = "GET".toList ∧
    joinSpace ((jsSplitSpace ("GET".toList ++ ' ' :: "/a b".toList)).tail) = "/a b".toList ∧
    runRegister [("GET".toList ++ ' ' :: "/a b".toList, JsVal.vFunction 7)] =
      ([Effect.route ("GET".toList.map Char.toUpper) "/a b".toList (some 7)], none) :=
  ⟨(key_split_first_space "GET".toList "/a b".toList 7 (by decide)).1,
    (key_split_first_space "GET".toList "/a b".toList 7 (by decide)).2.1,
    (key_split_first_space "GET".toList "/a b".toList 7 (by decide)).2.2 (by decide)⟩

/-! ## Claims C9, C10: the `$id` gate and null handlers -/

/-- The fixed message of the error thrown when the supplied JSON schema
has no (truthy) `$id`. -/
def missingIdMsg : List Char :=
  "Schema was ignored, $id is missing; Typed fastify schema was not registered...".toList

/-- JS truthiness of `schema?.$id`: a present, non-empty string. -/
def idTruthy : Option (List Char) → Bool
  | some s => !s.isEmpty
  | none => false

/-- The fixed setup effects `addSchema` performs after the `$id` gate and
before the registration loop, in source order (lines 30-47). -/
def setupEffects : List Effect :=
  [.addedSchema, .decoReply "matches".toList, .decoRequest "operationPath".toList,
    .hookAdded "onRequest".toList, .decoReply "asReply".toList, .hookAdded "onRoute".toList]

/-- The whole of `addSchema` (source lines 27-108) as an effect trace:
the `$id` gate first (lines 29-33), then the decorations and hooks, then
the registration loop.  Returns the effects performed and the error
thrown, if any. -/
def addSchemaModel (sid : Option (List Char)) (svc : List (List Char × JsVal)) :
    List Effect × Option JsErr :=
  if idTruthy sid then
    (setupEffects ++ (runRegister svc).1, (runRegister svc).2)
  else ([], some (.jsError missingIdMsg))

/-- Bool test of `needle` being a leading piece of `hay`. -/
def subPrefixAt : List Char → List Char → Bool
  | [], _ => true
  | _ :: _, [] => false
  | a :: as, b :: bs => a == b && subPrefixAt as bs

/-- Bool test of `needle` occurring contiguously anywhere in `hay`. -/
def containsSub (needle : List Char) : List Char → Bool
  | [] => subPrefixAt needle []
  | c :: rest => subPrefixAt needle (c :: rest) || containsSub needle rest

/-- C9 (counterexample): with a schema lacking `$id` and the service
`{"GET /x": handler}`, `addSchema` throws before performing any effect,
but the message is the fixed string
`"Schema was ignored, $id is missing; Typed fastify schema was not
registered..."`, which does not name the route key `"GET /x"` (nor any
route key). -/
theorem addSchema_missing_id_fixed_message :
    addSchemaModel none [("GET /x".toList, JsVal.vFunction 0)] =
      ([], some (.jsError missingIdMsg)) ∧
    containsSub "GET /x".toList missingIdMsg = false := by
  constructor
  · rfl
  · decide

/-- C9 (amended): if the supplied schema has no truthy `$id`, `addSchema`
throws the fixed missing-`$id` error before any hook, decoration, or
route is registered (the effect trace is empty); if `$id` is present,
the schema is added to the server first and registration proceeds. -/
theorem addSchema_id_gate (sid : Option (List Char)) (svc : List (List Char × JsVal)) :
    (idTruthy sid = false → addSchemaModel sid svc = ([], some (.jsError missingIdMsg))) ∧
    (idTruthy sid = true → addSchemaModel sid svc =
      (Effect.addedSchema :: (setupEffects.tail ++ (runRegister svc).1),
        (runRegister svc).2)) := by
  constructor <;> intro h <;> simp [addSchemaModel, h, setupEffects]

/-- Witness for `addSchema_id_gate` with a truthy `$id`. -/
theorem addSchema_id_gate_witness :
    idTruthy (some "test_schema".toList) = true ∧
    addSchemaModel (some "test_schema".toList) [("GET /x".toList, JsVal.vFunction 0)] =
      (Effect.addedSchema ::
        (setupEffects.tail ++ (runRegister [("GET /x".toList, JsVal.vFunction 0)]).1),
        (runRegister [("GET /x".toList, JsVal.vFunction 0)]).2) :=
  ⟨by decide,
    (addSchema_id_gate (some "test_schema".toList)
      [("GET /x".toList, JsVal.vFunction 0)]).2 (by decide)⟩

/-- C10 (counterexample): a service entry whose value is `null` does not
proceed into route registration: `runRegister` on `{"GET /": null}`
performs no route effect and throws the TypeError raised by evaluating
`handler.handler` on `null` (not the `"Unknown handler"` error). -/
theorem register_null_no_route :
    runRegister [("GET /".toList, JsVal.vNull)] = ([], some JsErr.typeError) := by
  decide

/-- C10 (amended): a `null` entry enters the `'object'` branch of the
`typeof` switch (since `typeof null` is `'object'`), so the
`"Unknown handler"` branch is not reached; but evaluating
`handler.handler` on `null` throws a TypeError, so the entry's route is
never registered and the loop stops there. -/
theorem register_null_entry (key : List Char) (rest : List (List Char × JsVal))
    (h : methodBad key = false) :
    jsTypeof JsVal.vNull = JsType.tobject ∧
    runRegister ((key, JsVal.vNull) :: rest) = ([], some JsErr.typeError) := by
  refine ⟨rfl, ?_⟩
  simp [runRegister, regStep, h, jsTypeof, getHandlerProp]

/-- Witness for `register_null_entry` at the key `"GET /"`. -/
theorem register_null_entry_witness :
    methodBad "GET /".toList = false ∧
    (jsTypeof JsVal.vNull = JsType.tobject ∧
      runRegister (("GET /".toList, JsVal.vNull) :: []) = ([], some JsErr.typeError)) :=
  ⟨by decide, register_null_entry "GET /".toList [] (by decide)⟩

/-! ## Claim C6: the `matches` reply decoration (source lines 35-37) -/

/-- The `matches` decoration: string equality of
`"${this.request.method} ${this.request.routerPath}"` against the
supplied label.  A pure, total Boolean function: it never throws, has no
side effects, and may be called any number of times. -/
def matchesImpl (method routerPath label : List Char) : Bool :=
  (method ++ ' ' :: routerPath) == label

/-- C6: `matches(label)` returns true iff `label` equals
`"<request method> <request routerPath>"` of the current request; for
every other label — labels of other routes included — it returns false
(it is total, so it cannot throw). -/
theorem matches_iff (method routerPath label : List Char) :
    matchesImpl method routerPath label = true ↔
      label = method ++ ' ' :: routerPath := by
  unfold matchesImpl
  constructor
  · intro h
    exact (eq_of_beq h).symm
  · intro h
    subst h
    exact beq_self_eq_true _

/-! ## Claim C8: the `operationPath` request annotation (source lines 38-42) -/

/-- The per-request context: the server-resolved method verb and
route-template path (`routerPath`), the literal request `url`, and the
`operationPath` decoration (`null`, i.e. `none`, before the hook runs). -/
structure ReqCtx where
  method : List Char
  routerPath : List Char
  url : List Char
  operationPath : Option (List Char)

/-- The `onRequest` hook body: sets
`req.operationPath = `"${req.method} ${req.routerPath}"`` and calls
`done()`.  A total pure update: synchronous, with no failure mode. -/
def onRequestAnnotate (r : ReqCtx) : ReqCtx :=
  { r with operationPath := some (r.method ++ ' ' :: r.routerPath) }

/-- The server's per-request pipeline contract: `onRequest` hooks run
before the handler, so the handler observes the annotated context. -/
def dispatch {ρ : Type} (handler : ReqCtx → ρ) (r : ReqCtx) : ρ :=
  handler (onRequestAnnotate r)

/-- C8: before the handler runs, `operationPath` is set to
`"<method> <routerPath>"` built from the server-resolved method and
route-template path — the literal `url` is not consulted (it is passed
through unchanged and does not appear in the computed tag), and the
update is a total synchronous function with no failure mode. -/
theorem operationPath_annotated {ρ : Type} (handler : ReqCtx → ρ) (r : ReqCtx) :
    (onRequestAnnotate r).operationPath = some (r.method ++ ' ' :: r.routerPath) ∧
    (onRequestAnnotate r).url = r.url ∧
    dispatch handler r =
      handler { r with operationPath := some (r.method ++ ' ' :: r.routerPath) } :=
  ⟨rfl, rfl, rfl⟩


/-! ## Claim C2: the Reply contract (the `Reply` interface, source lines 139-238)

The send discipline of the reply object lives entirely in the
compile-time `Reply` interface: each method's signature restricts the
receiver states from which it may be invoked, `send` returns `AsReply`
(source lines 258-261), which exposes no reply methods, and uninhabited
`Invalid<...>` parameter types make some calls impossible to write.  Two
properties of TypeScript shape what this does and does not enforce:

 - types are not linear: a method call does not change the type of the
   receiver reference, so the same pre-`send` reference can be used
   again — `const r = reply.status(200); r.send(); r.send()`
   type-checks;
 - `matches` (source lines 165-177) is a `this is` type predicate: in
   its true branch the receiver is narrowed to
   `Reply<NewOp, S, Content, Headers, ...>` with
   `S = keyof Get<NewOp, 'response'>` (the union of the new operation's
   response statuses) and `Headers = Get<Get2<NewOp, 'response', S>,
   'headers'>` (the union of their declared header types), so `send`
   type-checks on the narrowed receiver with no prior `status` or
   `header` call.

We model this faithfully.  `Status` type parameters are finite unions of
status literals (`[]` = `never`); `Headers` type parameters are finite
unions of object types, each given by its key set (`[]` = `never`). -/

/-- The `Op['response']` map of an operation: status code ↦ declared
response-header keys (`none` when the status declares no `headers`,
i.e. its `headers` type is `never`). -/
abbrev RespSchema := List (Nat × Option (List String))

/-- A `Status` type parameter: a finite union of status literals;
`[]` is `never`. -/
abbrev StatusTy := List Nat

/-- A `Headers` type parameter: a finite union of object types, each
listed by its keys; `[]` is `never`. -/
abbrev HeadersTy := List (List String)

/-- `Get2<Op['response'], Status, 'headers'>` for a union `Status`: the
conditional type distributes over the union, statuses outside the
response map and statuses declaring no `headers` contribute `never`
(which vanishes in a union). -/
def allHeadersOf (resp : RespSchema) (stat : StatusTy) : HeadersTy :=
  stat.filterMap (fun s => (alookup s resp).getD none)

/-- Assignability of one object type to another: every key of the target
must be present (values are drawn from the declared header types, hence
compatible). -/
def objExtends (c m : List String) : Bool := m.all (fun k => c.contains k)

/-- TS `[A] extends [B]` on (unions of) header object types: `never`
extends everything; a non-`never` type never extends `never`; a union
extends a union when every member is assignable to some member. -/
def tyExtends (c m : HeadersTy) : Bool :=
  match c, m with
  | [], _ => true
  | _ :: _, [] => false
  | cs, ms => cs.all (fun cobj => ms.any (fun mobj => objExtends cobj mobj))

/-- The `Missing<Candidate, MaybeRequired>` conditional type (source
lines 112-118): false when both are `never`; true when only the
candidate is; otherwise the negation of
`[Candidate] extends [MaybeRequired]`. -/
def tyMissing (c m : HeadersTy) : Bool :=
  match c, m with
  | [], [] => false
  | [], _ :: _ => true
  | _ :: _, _ => !tyExtends c m

/-- The type of a reply-valued expression: either
`Reply<Op, Status, Content, Headers, ...>` — carrying the operation's
response map and the `Status`/`Headers` parameters — or the terminal
`AsReply`. -/
inductive ReplyTy
  | reply (resp : RespSchema) (stat : StatusTy) (hdrs : HeadersTy)
  | asReply
  deriving DecidableEq

/-- One method invocation on a reply-typed expression.
`matchesTrueOp resp` is a `matches(path)` call observed true, `resp`
being the response map of the matched path's operation (`NewOp`);
`matchesFalseOp` is one observed false (no narrowing applies). -/
inductive ROp
  | statusOp (s : Nat)
  | codeOp (s : Nat)
  | headerOp (h : String)
  | headersOp (hs : List String)
  | getHeaderOp (h : String)
  | getHeadersOp
  | matchesTrueOp (resp : RespSchema)
  | matchesFalseOp
  | redirectOp
  | sendOp
  | asReplyOp
  deriving DecidableEq

/-- Typing of one method call: `some ty'` when the call type-checks on a
receiver of the given type, `ty'` being the type of the call's value;
`none` when it is rejected.  On `AsReply` nothing type-checks (it has
only `then`).  `status`/`code` require their argument to be a key of
`Op['response']` and set `Status` to that literal; `header` requires its
name to be a key of `AllHeaders` (the keys of a union type are the
intersection of the members' keys, so a `never`/empty union has none)
and intersects `{h}` onto `Headers`; `headers` requires its argument to
extend `AllHeaders` and replaces `Headers` with it; `getHeader` requires
its name to be a key of the accumulated `Headers`; a true `matches`
narrows the receiver to `Reply<NewOp, keyof NewOp response, ...,
headers-of-those, ...>`; `redirect`/`asReply` return `AsReply`
unconditionally; `send` is rejected when `Status` is `never`
(`Invalid<'Missing status'>`) or when `Missing<Headers, AllHeaders>`
holds (`Invalid<'Missing headers: ...'>`), and returns `AsReply`. -/
def methodTy : ReplyTy → ROp → Option ReplyTy
  | .asReply, _ => none
  | .reply resp stat hdrs, op =>
    match op with
    | .statusOp s =>
      if (alookup s resp).isSome then some (.reply resp [s] hdrs) else none
    | .codeOp s =>
      if (alookup s resp).isSome then some (.reply resp [s] hdrs) else none
    | .headerOp h =>
      let all := allHeadersOf resp stat
      if all ≠ [] ∧ all.all (fun mobj => mobj.contains h) then
        some (.reply resp stat
          (match hdrs with
           | [] => [[h]]
           | cs => cs.map (fun c => c ++ [h])))
      else none
    | .headersOp hs =>
      if tyExtends [hs] (allHeadersOf resp stat) then some (.reply resp stat [hs])
      else none
    | .getHeaderOp h =>
      if hdrs ≠ [] ∧ hdrs.all (fun c => c.contains h) then
        some (.reply resp stat hdrs)
      else none
    | .getHeadersOp => some (.reply resp stat hdrs)
    | .matchesTrueOp newResp =>
      some (.reply newResp (newResp.map Prod.fst)
        (allHeadersOf newResp (newResp.map Prod.fst)))
    | .matchesFalseOp => some (.reply resp stat hdrs)
    | .redirectOp => some .asReply
    | .sendOp =>
      if stat = [] then none
      else if tyMissing hdrs (allHeadersOf resp stat) then none
      else some .asReply
    | .asReplyOp => some .asReply

/-- One statement of a handler body: a method call on a previously bound
reference (by index), whose value is bound as the next reference. -/
structure RefCall where
  recv : Nat
  op : ROp
  deriving DecidableEq

/-- Type-checks a handler body against an environment of already-bound
reply references.  References are not consumed: a receiver keeps its
type after a call (TS types are not linear), and the call's value is
appended as a new reference. -/
def checkCalls (env : List ReplyTy) : List RefCall → Option (List ReplyTy)
  | [] => some env
  | c :: rest =>
    match env.get? c.recv with
    | none => none
    | some ty =>
      match methodTy ty c.op with
      | none => none
      | some ty' => checkCalls (env ++ [ty']) rest

/-- Type-checks a handler body whose reference 0 is the handler's
`reply` parameter, typed `Reply<Op, never, never, never, ...>`
(source line 369). -/
def checkHandler (resp : RespSchema) (body : List RefCall) : Option (List ReplyTy) :=
  checkCalls [.reply resp [] []] body

/-- The chained discipline: the first call on reference `i`, each later
call on the reference created by the previous call. -/
def chainedCalls (i : Nat) : List ROp → List RefCall
  | [] => []
  | op :: rest => ⟨i, op⟩ :: chainedCalls (i + 1) rest

/-- Chained evaluation of a call sequence on one reply type: each call
is typed against the value of the previous one. -/
def runChain (ty : ReplyTy) : List ROp → Option ReplyTy
  | [] => some ty
  | op :: rest =>
    match methodTy ty op with
    | none => none
    | some ty' => runChain ty' rest

def isSendOpR : ROp → Bool
  | .sendOp => true
  | _ => false

/-- Number of `send` calls in a sequence. -/
def sendCountR (ops : List ROp) : Nat := ops.countP isSendOpR

/-- Whether a call is a true-`matches` narrowing. -/
def usesNarrow : ROp → Bool
  | .matchesTrueOp _ => true
  | _ => false

/-- `AsReply` exposes no reply methods (only `then`, source lines
258-261): no call on an `AsReply`-typed reference type-checks. -/
theorem methodTy_asReply (op : ROp) : methodTy ReplyTy.asReply op = none := rfl

/-- Inversion of a type-checking `send`: the `Status` parameter is not
`never`, `Missing<Headers, AllHeaders>` does not hold, and the call's
value is `AsReply`. -/
theorem methodTy_send_inv (resp : RespSchema) (stat : StatusTy) (hdrs : HeadersTy)
    (ty' : ReplyTy) (h : methodTy (ReplyTy.reply resp stat hdrs) ROp.sendOp = some ty') :
    stat ≠ [] ∧ tyMissing hdrs (allHeadersOf resp stat) = false ∧
      ty' = ReplyTy.asReply := by
  have h' : (if stat = [] then none
      else if tyMissing hdrs (allHeadersOf resp stat) then none
      else some ReplyTy.asReply) = some ty' := by
    rw [← h]
    rfl
  by_cases h1 : stat = []
  · rw [if_pos h1] at h'
    exact Option.noConfusion h'
  · rw [if_neg h1] at h'
    cases h2 : tyMissing hdrs (allHeadersOf resp stat) with
    | true => rw [if_pos h2] at h'; exact Option.noConfusion h'
    | false =>
      rw [if_neg (by simp [h2])] at h'
      exact ⟨h1, rfl, (Option.some.inj h').symm⟩

theorem isSendOpR_eq (op : ROp) (h : isSendOpR op = true) : op = ROp.sendOp := by
  cases op <;> first | rfl | simp [isSendOpR] at h

/-- Number of sends a chain can still type-check from a given receiver
type. -/
def sendBound : ReplyTy → Nat
  | .asReply => 0
  | .reply _ _ _ => 1

/-- A chained call sequence that type-checks contains at most one `send`
(none at all when it starts from an `AsReply`). -/
theorem runChain_sendCount (ops : List ROp) :
    ∀ (ty ty' : ReplyTy), runChain ty ops = some ty' →
    sendCountR ops ≤ sendBound ty := by
  induction ops with
  | nil =>
    intro ty ty' _
    simp [sendCountR]
  | cons op rest ih =>
    intro ty ty' h
    rw [runChain] at h
    cases hm : methodTy ty op with
    | none => rw [hm] at h; exact Option.noConfusion h
    | some ty1 =>
      rw [hm] at h
      cases ty with
      | asReply => rw [methodTy_asReply] at hm; exact Option.noConfusion hm
      | reply resp stat hdrs =>
        have hrest := ih ty1 ty' h
        cases hop : isSendOpR op with
        | false =>
          have hcount : sendCountR (op :: rest) = sendCountR rest := by
            simp [sendCountR, List.countP_cons, hop]
          rw [hcount]
          have hb : sendBound ty1 ≤ 1 := by cases ty1 <;> simp [sendBound]
          calc sendCountR rest ≤ sendBound ty1 := hrest
            _ ≤ 1 := hb
        | true =>
          obtain rfl := isSendOpR_eq op hop
          obtain ⟨-, -, rfl⟩ := methodTy_send_inv resp stat hdrs ty1 hm
          have hcount : sendCountR (ROp.sendOp :: rest) = sendCountR rest + 1 := by
            simp [sendCountR, List.countP_cons, isSendOpR]
          simp [sendBound] at hrest
          simp [hcount, hrest, sendBound]

theorem runChain_append (l1 l2 : List ROp) (ty : ReplyTy) :
    runChain ty (l1 ++ l2) =
      (runChain ty l1).bind (fun tym => runChain tym l2) := by
  induction l1 generalizing ty with
  | nil => simp [runChain]
  | cons op rest ih =>
    simp only [List.cons_append, runChain]
    cases hm : methodTy ty op with
    | none => simp
    | some ty1 => simp [ih ty1]

/-- The chained fragment of the body-typing relation: running
`checkCalls` on a chained body accepts exactly when `runChain` accepts
on the type of the reference the chain starts from. -/
theorem checkCalls_chained_isSome (ops : List ROp) :
    ∀ (env : List ReplyTy) (i : Nat) (ty : ReplyTy),
    env.length = i + 1 → env.get? i = some ty →
    (checkCalls env (chainedCalls i ops)).isSome = (runChain ty ops).isSome := by
  induction ops with
  | nil =>
    intro env i ty _ _
    simp [chainedCalls, checkCalls, runChain]
  | cons op rest ih =>
    intro env i ty hlen hget
    simp only [chainedCalls, checkCalls]
    rw [hget]
    cases hm : methodTy ty op with
    | none => simp [runChain, hm]
    | some ty1 =>
      have hlen' : (env ++ [ty1]).length = (i + 1) + 1 := by simp [hlen]
      have hget' : (env ++ [ty1]).get? (i + 1) = some ty1 := by
        rw [← hlen]
        rw [List.get?_eq_getElem?]
        exact List.getElem?_concat_length env ty1
      simp only [runChain, hm]
      exact ih (env ++ [ty1]) (i + 1) ty1 hlen' hget'

/-- C2 (counterexample): the interface does not reject a second `send`,
nor a `send` without accumulated headers.  First body (non-linear reuse
of a reference): `const r = reply.status(200); r.send(); r.send()` —
both sends on `r` type-check, since a call does not change the type of
its receiver.  Second body (`matches` narrowing, on an operation whose
200 response requires the `x-total` header):
`if (reply.matches(p)) { reply.send(payload) }` — the narrowed receiver
has `Status = 200` and `Headers = {x-total}` pre-populated, so `send`
type-checks although no `status` and no `header` call was made and no
header was accumulated at runtime. -/
theorem reply_double_send_typechecks :
    checkHandler [(200, none)]
        [⟨0, ROp.statusOp 200⟩, ⟨1, ROp.sendOp⟩, ⟨1, ROp.sendOp⟩] =
      some [ReplyTy.reply [(200, none)] [] [], ReplyTy.reply [(200, none)] [200] [],
        ReplyTy.asReply, ReplyTy.asReply] ∧
    checkHandler [(200, some ["x-total"])]
        [⟨0, ROp.matchesTrueOp [(200, some ["x-total"])]⟩, ⟨1, ROp.sendOp⟩] =
      some [ReplyTy.reply [(200, some ["x-total"])] [] [],
        ReplyTy.reply [(200, some ["x-total"])] [200] [["x-total"]],
        ReplyTy.asReply] := by
  constructor
  · decide
  · decide

/-- C2 (amended): the send discipline is enforced only along a chained
use of the reply — each call invoked on the value returned by the
previous call — that contains no true `matches` narrowing: such a chain,
when it type-checks, performs at most one `send` (a second would be a
call on the returned `AsReply`, which exposes no methods, as the third
conjunct states); and wherever its `send` type-checks, a status had been
selected and the accumulated `Headers` type covers every header the
response schema declares for it.  Outside this discipline the interface
enforces neither property (see the counterexample), and the runtime
layer installs no `sent` flag and no header check of its own. -/
theorem chained_reply_contract (resp : RespSchema) (ops : List ROp) (tyF : ReplyTy)
    (_hnm : ops.all (fun op => !usesNarrow op) = true)
    (h : runChain (ReplyTy.reply resp [] []) ops = some tyF) :
    sendCountR ops ≤ 1 ∧
    (∀ pre post, ops = pre ++ ROp.sendOp :: post →
      ∃ rsp stat hdrs,
        runChain (ReplyTy.reply resp [] []) pre =
          some (ReplyTy.reply rsp stat hdrs) ∧
        stat ≠ [] ∧ tyMissing hdrs (allHeadersOf rsp stat) = false) ∧
    (∀ op, methodTy ReplyTy.asReply op = none) := by
  refine ⟨?_, ?_, fun op => methodTy_asReply op⟩
  · have hb := runChain_sendCount ops (ReplyTy.reply resp [] []) tyF h
    simpa [sendBound] using hb
  · intro pre post hsplit
    rw [hsplit, runChain_append] at h
    cases hp : runChain (ReplyTy.reply resp [] []) pre with
    | none => rw [hp] at h; exact Option.noConfusion h
    | some typ =>
      rw [hp] at h
      simp only [Option.some_bind] at h
      rw [runChain] at h
      cases hm : methodTy typ ROp.sendOp with
      | none => rw [hm] at h; exact Option.noConfusion h
      | some ty1 =>
        cases typ with
        | asReply => rw [methodTy_asReply] at hm; exact Option.noConfusion hm
        | reply rsp stat hdrs =>
          obtain ⟨h1, h2, -⟩ := methodTy_send_inv rsp stat hdrs ty1 hm
          exact ⟨rsp, stat, hdrs, rfl, h1, h2⟩

/-- Witness for `chained_reply_contract`: an operation requiring the
`x-total` response header for status 200, and the narrowing-free chain
`status(200); header("x-total", ...); send(...)`. -/
theorem chained_reply_contract_witness :
    ([ROp.statusOp 200, ROp.headerOp "x-total", ROp.sendOp].all
      (fun op => !usesNarrow op)) = true ∧
    runChain (ReplyTy.reply [(200, some ["x-total"])] [] [])
        [ROp.statusOp 200, ROp.headerOp "x-total", ROp.sendOp] =
      some ReplyTy.asReply ∧
    (sendCountR [ROp.statusOp 200, ROp.headerOp "x-total", ROp.sendOp] ≤ 1 ∧
      (∀ pre post,
        [ROp.statusOp 200, ROp.headerOp "x-total", ROp.sendOp] =
          pre ++ ROp.sendOp :: post →
        ∃ rsp stat hdrs,
          runChain (ReplyTy.reply [(200, some ["x-total"])] [] []) pre =
            some (ReplyTy.reply rsp stat hdrs) ∧
          stat ≠ [] ∧ tyMissing hdrs (allHeadersOf rsp stat) = false) ∧
      (∀ op, methodTy ReplyTy.asReply op = none)) :=
  ⟨by decide, by decide,
    chained_reply_contract [(200, some ["x-total"])]
      [ROp.statusOp 200, ROp.headerOp "x-total", ROp.sendOp]
      ReplyTy.asReply (by decide) (by decide)⟩
